import Mathlib

/-!
Verification of the text compression/decompression core of the
ai-agent-handoff repository (scripts/compress_docs.py, scripts/decompress.py).

Text is modelled as `List Char`; positions are `Nat` indices, matching the
Python string/index model.  Python dictionaries are modelled as association
lists in key first-insertion order with duplicate literal keys collapsed to
their final value (Python dict-literal semantics); dictionary lookup is
first-match lookup, which agrees with Python because keys are unique after
collapsing.  Python's `re` module is not embedded generically: each of the
finitely many patterns appearing in the source is translated directly into a
matcher with the backtracking/greedy behaviour that pattern has, and
`finditer`/`re.sub` are the usual leftmost non-overlapping scans.
Case folding follows Python's ASCII behaviour on the ASCII data used by the
scripts.
-/

set_option maxRecDepth 200000

namespace Handoff

/-- ASCII uppercase letter test. -/
def isUpperA (c : Char) : Bool := 65 ≤ c.toNat && c.toNat ≤ 90

/-- ASCII lowercase letter test. -/
def isLowerA (c : Char) : Bool := 97 ≤ c.toNat && c.toNat ≤ 122

/-- ASCII letter test. -/
def isLetterA (c : Char) : Bool := isUpperA c || isLowerA c

/-- ASCII digit test. -/
def isDigitA (c : Char) : Bool := 48 ≤ c.toNat && c.toNat ≤ 57

/-- A cased character (ASCII scope; the scripts' data is ASCII). -/
def isCasedA (c : Char) : Bool := isUpperA c || isLowerA c

/-- Python `\w`: `[a-zA-Z0-9_]`. -/
def isWordChar (c : Char) : Bool := isLetterA c || isDigitA c || c = '_'

/-- Python `str.isspace()` for the ASCII whitespace characters (`\s`). -/
def pyIsSpace (c : Char) : Bool :=
  c = ' ' || c = '\t' || c = '\n' || c = '\r' || c.toNat = 11 || c.toNat = 12

/-- ASCII lower-casing of a single character (Python `str.lower` on ASCII). -/
def lowC (c : Char) : Char :=
  if isUpperA c then Char.ofNat (c.toNat + 32) else c

/-- ASCII upper-casing of a single character (Python `str.upper` on ASCII). -/
def uppC (c : Char) : Char :=
  if isLowerA c then Char.ofNat (c.toNat - 32) else c

/-- Case-insensitive character comparison (`re.IGNORECASE`, ASCII scope). -/
def ciEq (a b : Char) : Bool := lowC a = lowC b

/-- Python `str.lower()`. -/
def pyLower (s : List Char) : List Char := s.map lowC

/-- Python `str.upper()`. -/
def pyUpper (s : List Char) : List Char := s.map uppC

/-- Python `str.islower()`: at least one cased character and no uppercase one. -/
def pyIsLower (s : List Char) : Bool :=
  s.any isCasedA && s.all (fun c => !isUpperA c)

/-- Python `str.isupper()`: at least one cased character and no lowercase one. -/
def pyIsUpper (s : List Char) : Bool :=
  s.any isCasedA && s.all (fun c => !isLowerA c)

/-- Python `s[0].isupper()` (on a nonempty matched token). -/
def headIsUpper (s : List Char) : Bool :=
  match s with
  | [] => false
  | c :: _ => isUpperA c

/-- Python `str.capitalize()`: first character upper-cased, rest lower-cased. -/
def pyCapitalize (s : List Char) : List Char :=
  match s with
  | [] => []
  | c :: rest => uppC c :: pyLower rest

/-- Vowel test used by `reduce_vowels`: `char.lower() in "aeiouAEIOU"`. -/
def isVowel (c : Char) : Bool :=
  "aeiouAEIOU".toList.contains (lowC c)

/-! ### Configuration tables (compress_docs.py) -/

/-- `REPLACEMENTS` from compress_docs.py, in key first-insertion order with the
duplicate literal keys (`configuration`, `implementation`, `initialize`,
`parameter`, `production`, `repository`, their values all identical) collapsed
per Python dict-literal semantics. -/
def REPLACEMENTS : List (String × String) := [
  ("MCP", "Model Context Protocol"),
  ("mcp", "Model Context Protocol"),
  ("function", "fn"),
  ("implementation", "impl"),
  ("parameter", "param"),
  ("configuration", "config"),
  ("application", "app"),
  ("database", "db"),
  ("authentication", "auth"),
  ("directory", "dir"),
  ("repository", "repo"),
  ("initialize", "init"),
  ("integration", "integ"),
  ("development", "dev"),
  ("production", "prod"),
  ("environment", "env"),
  ("documentation", "docs"),
  ("distribution", "dist"),
  ("architecture", "arch"),
  ("argument", "arg"),
  ("attribute", "attr"),
  ("background", "bg"),
  ("certificate", "cert"),
  ("command", "cmd"),
  ("communication", "comm"),
  ("connection", "conn"),
  ("constant", "const"),
  ("definition", "def"),
  ("dependency", "dep"),
  ("description", "desc"),
  ("document", "doc"),
  ("execution", "exec"),
  ("extension", "ext"),
  ("frequency", "freq"),
  ("generator", "gen"),
  ("identifier", "id"),
  ("information", "info"),
  ("instance", "inst"),
  ("instruction", "instr"),
  ("interface", "iface"),
  ("library", "lib"),
  ("message", "msg"),
  ("modification", "mod"),
  ("notification", "notif"),
  ("operation", "op"),
  ("optimization", "opt"),
  ("organization", "org"),
  ("package", "pkg"),
  ("permission", "perm"),
  ("process", "proc"),
  ("property", "prop"),
  ("reference", "ref"),
  ("registration", "reg"),
  ("request", "req"),
  ("resource", "res"),
  ("response", "resp"),
  ("session", "sess"),
  ("specification", "spec"),
  ("statistic", "stat"),
  ("structure", "struct"),
  ("synchronization", "sync"),
  ("system", "sys"),
  ("temporary", "temp"),
  ("transaction", "tx"),
  ("transformation", "transform"),
  ("utility", "util"),
  ("validation", "valid"),
  ("variable", "var"),
  ("version", "ver"),
  ("in order to", "to"),
  ("make sure", "ensure"),
  ("take a look at", "check"),
  ("find out", "discover"),
  ("set up", "setup"),
  ("due to the fact that", "because"),
  ("for the purpose of", "for"),
  ("in the event that", "if"),
  ("in the process of", "while"),
  ("on the basis of", "based on"),
  ("in spite of the fact that", "although"),
  ("at this point in time", "now"),
  ("configure", "config"),
  ("execute", "exec"),
  ("implement", "impl")]

/-- `PRESERVE_PHRASES` from compress_docs.py. -/
def PRESERVE_PHRASES : List String := [
  "```bash",
  "```python",
  "```javascript",
  "```",
  "git commit",
  "git add",
  "git push",
  "git pull",
  "git reset",
  "/Users/",
  "/home/",
  "backend/",
  "frontend/",
  "function(",
  "def ",
  "class ",
  "import ",
  "from ",
  "require(",
  "CRITICAL:",
  "WARNING:",
  "ERROR:",
  "IMPORTANT:"]

/-- `NEVER_COMPRESS` from compress_docs.py. -/
def NEVER_COMPRESS : List String := [
  "the", "and", "but", "for", "not", "with", "this", "that",
  "git", "npm", "yarn", "node", "react", "vue", "python", "java",
  "code", "file", "test", "api", "url", "json", "xml", "html",
  "css", "js", "ts"]

/-- `SYMBOLS` from compress_docs.py. -/
def SYMBOLS : List (String × String) := [
  ("returns", "→"),
  ("greater than", ">"),
  ("less than", "<"),
  ("equal to", "="),
  ("not equal to", "≠"),
  ("approximately", "≈"),
  ("and", "&"),
  ("or", "|"),
  ("therefore", "∴"),
  ("because", "∵"),
  ("for all", "∀"),
  ("there exists", "∃"),
  ("element of", "∈"),
  ("not element of", "∉"),
  ("subset of", "⊂"),
  ("infinite", "∞"),
  ("degrees", "°"),
  ("square root", "√"),
  ("check", "✓"),
  ("important", "❗"),
  ("warning", "⚠️"),
  ("error", "🔴"),
  ("success", "✅"),
  ("failure", "❌"),
  ("note", "📝"),
  ("idea", "💡"),
  ("question", "❓"),
  ("time", "⏱️"),
  ("required", "◉"),
  ("optional", "○")]

/-- The tables above converted to character lists. -/
def replacementsL : List (List Char × List Char) :=
  REPLACEMENTS.map fun p => (p.1.toList, p.2.toList)

def preservePhrasesL : List (List Char) := PRESERVE_PHRASES.map String.toList

def neverCompressL : List (List Char) := NEVER_COMPRESS.map String.toList

def symbolsL : List (List Char × List Char) :=
  SYMBOLS.map fun p => (p.1.toList, p.2.toList)

/-- Case-insensitive "pattern is a prefix of text" (`re.IGNORECASE` literal). -/
def ciPrefix : List Char → List Char → Bool
  | [], _ => true
  | _ :: _, [] => false
  | p :: ps, s :: ss => ciEq p s && ciPrefix ps ss

/-! ### Protected-Region Index (compress_docs.py)

`is_in_code_block`, `is_in_preserve_phrase`, `is_in_url`. -/

/-- The marker-collection loop of `is_in_code_block`: scan left to right; on an
occurrence of "```" not immediately preceded by a backslash record its index
and jump 3 characters; an escaped occurrence is also jumped over without being
recorded; otherwise advance one character.  `prev` is the character just
before `pos` (`none` at the start of the text).  The first argument is
recursion fuel (every step consumes at least one character, so fuel equal to
the text length makes the fuel-out case unreachable); fuel keeps the
recursion structural so the kernel can evaluate it. -/
def scanMarkersAux : Nat → Option Char → Nat → List Char → List Nat
  | _, _, _, [] => []
  | 0, _, _, _ :: _ => []
  | fuel + 1, prev, pos, c :: cs =>
    if (c :: cs).take 3 = "```".toList then
      if prev = some '\\' then
        scanMarkersAux fuel ((c :: cs).get? 2) (pos + 3) (cs.drop 2)
      else
        pos :: scanMarkersAux fuel ((c :: cs).get? 2) (pos + 3) (cs.drop 2)
    else
      scanMarkersAux fuel (some c) (pos + 1) cs

/-- All unescaped fence-marker positions of a text. -/
def scanMarkers (text : List Char) : List Nat :=
  scanMarkersAux text.length none 0 text

/-- `is_in_code_block(text, pos)`: odd number of fence markers strictly before
`pos` (with an explicit empty-list early return, as in the source). -/
def is_in_code_block (text : List Char) (pos : Nat) : Bool :=
  let ms := scanMarkers text
  if ms.isEmpty then false
  else (ms.countP (fun m => decide (m < pos))) % 2 == 1

/-- `re.finditer` of a literal (case-sensitive, no boundaries): leftmost
non-overlapping occurrences, as (start, end) spans.  The patterns used are
nonempty. -/
def finditerLit (pat : List Char) : Nat → Nat → List Char → List (Nat × Nat)
  | _, _, [] => []
  | 0, _, _ :: _ => []
  | fuel + 1, pos, c :: cs =>
    if pat.isPrefixOf (c :: cs) then
      (pos, pos + pat.length) :: finditerLit pat fuel (pos + pat.length) (cs.drop (pat.length - 1))
    else
      finditerLit pat fuel (pos + 1) cs

/-- `is_in_preserve_phrase(text, pos)`. -/
def is_in_preserve_phrase (text : List Char) (pos : Nat) : Bool :=
  preservePhrasesL.any fun ph =>
    (finditerLit ph text.length 0 text).any fun se => se.1 ≤ pos && pos < se.2

/-! URL patterns.  Each regex in `URL_PATTERNS` is translated into a matcher
returning the length of the (greedy, leftmost-anchored) match at the head of
the given text, if any. -/

/-- The character class `[^\s<>"{}|\\^`+backtick+`\[\]]` of the URL bodies. -/
def urlBodyChar (c : Char) : Bool :=
  !(pyIsSpace c || c = '<' || c = '>' || c = '"' || c.toNat = 123 ||
    c.toNat = 125 || c = '|' || c = '\\' || c = '^' || c.toNat = 96 ||
    c = '[' || c = ']')

/-- The class of `git@` user/host part: URL body characters except `:`. -/
def gitHostChar (c : Char) : Bool := urlBodyChar c && c ≠ ':'

/-- Domain-name characters `[a-zA-Z0-9.-]`. -/
def domChar (c : Char) : Bool := isLetterA c || isDigitA c || c = '.' || c = '-'

/-- Matcher for a scheme-prefixed URI (`https?://…`, `ftp://…`, `ssh://…`):
the literal scheme prefix followed by one or more URL body characters. -/
def matchSchemeAt (scheme : List Char) (s : List Char) : Option Nat :=
  if scheme.isPrefixOf s then
    let body := (s.drop scheme.length).takeWhile urlBodyChar
    if body.isEmpty then none else some (scheme.length + body.length)
  else none

/-- `https?://…`: the optional `s` is greedy; backtracking to `http://` after
`https` has matched always fails on the `://`, so prefix dispatch suffices. -/
def matchHttpAt (s : List Char) : Option Nat :=
  if "https://".toList.isPrefixOf s then matchSchemeAt "https://".toList s
  else matchSchemeAt "http://".toList s

/-- `git@[^\s<>"{}|\\^`+backtick+`\[\]:]+:[^\s]+` -/
def matchGitAt (s : List Char) : Option Nat :=
  if "git@".toList.isPrefixOf s then
    let host := (s.drop 4).takeWhile gitHostChar
    if host.isEmpty then none
    else
      match s.drop (4 + host.length) with
      | ':' :: rest =>
        let tail := rest.takeWhile (fun c => !pyIsSpace c)
        if tail.isEmpty then none
        else some (4 + host.length + 1 + tail.length)
      | _ => none
  else none

/-- Backtracking search of `[a-zA-Z0-9.-]+\.[a-zA-Z]{2,}(?:/[^…]*)?` at the
head of `s`, with the greedy `[a-zA-Z0-9.-]+` having first consumed `k`
characters: the `\.` must match at index `k`, then at least two letters, then
an optional `/`-introduced URL-body run; on failure `k` decreases. -/
def domainTryDot (s : List Char) : Nat → Option Nat
  | 0 => none
  | k + 1 =>
    if s.get? (k + 1) = some '.' then
      let letters := (s.drop (k + 2)).takeWhile isLetterA
      if 2 ≤ letters.length then
        let base := k + 2 + letters.length
        match s.get? base with
        | some '/' => some (base + 1 + ((s.drop (base + 1)).takeWhile urlBodyChar).length)
        | _ => some base
      else domainTryDot s k
    else domainTryDot s k

/-- `[a-zA-Z0-9.-]+\.[a-zA-Z]{2,}(?:/[^…]*)?` (bare domain names). -/
def matchDomainAt (s : List Char) : Option Nat :=
  let run := s.takeWhile domChar
  if run.isEmpty then none else domainTryDot s (run.length - 1)

/-- `localhost:[0-9]+` and `127\.0\.0\.1:[0-9]+`. -/
def matchDigitsAfter (prefixL : List Char) (s : List Char) : Option Nat :=
  if prefixL.isPrefixOf s then
    let ds := (s.drop prefixL.length).takeWhile isDigitA
    if ds.isEmpty then none else some (prefixL.length + ds.length)
  else none

/-- The seven `URL_PATTERNS`, in source order. -/
def urlMatchers : List (List Char → Option Nat) := [
  matchHttpAt,
  matchSchemeAt "ftp://".toList,
  matchSchemeAt "ssh://".toList,
  matchGitAt,
  matchDomainAt,
  fun s => matchDigitsAfter "localhost:".toList s,
  fun s => matchDigitsAfter "127.0.0.1:".toList s]

/-- `re.finditer` for one of the pattern matchers: scan left to right, on a
match record its span and resume after it, otherwise advance one character. -/
def finditerPat (m : List Char → Option Nat) : Nat → Nat → List Char → List (Nat × Nat)
  | _, _, [] => []
  | 0, _, _ :: _ => []
  | fuel + 1, pos, c :: cs =>
    match m (c :: cs) with
    | some len => (pos, pos + len) :: finditerPat m fuel (pos + len) (cs.drop (len - 1))
    | none => finditerPat m fuel (pos + 1) cs

/-- `is_in_url(text, pos)`: `pos` lies inside some match of some URL pattern. -/
def is_in_url (text : List Char) (pos : Nat) : Bool :=
  urlMatchers.any fun m =>
    (finditerPat m text.length 0 text).any fun se => se.1 ≤ pos && pos < se.2

/-- The protection test every compression stage performs on a match start. -/
def isProtected (text : List Char) (pos : Nat) : Bool :=
  is_in_code_block text pos || is_in_preserve_phrase text pos || is_in_url text pos

/-! ### Word-boundary matching (`\b` + literal + `\b`, `re.IGNORECASE`) -/

/-- Word-ness of an optional character (out of bounds counts as non-word). -/
def isWordO : Option Char → Bool
  | none => false
  | some c => isWordChar c

/-- `\b` holds between two (optional) characters when their word-ness differs. -/
def isBoundary (a b : Option Char) : Bool := isWordO a != isWordO b

/-- `re.finditer(r'\b' + re.escape(pat) + r'\b', text, re.IGNORECASE)`:
leftmost non-overlapping spans.  `prev` is the character before `pos`. -/
def finditerWB (pat : List Char) : Nat → Option Char → Nat →
    List Char → List (Nat × Nat)
  | _, _, _, [] => []
  | 0, _, _, _ :: _ => []
  | fuel + 1, prev, pos, c :: cs =>
    if isBoundary prev (some c) && ciPrefix pat (c :: cs) &&
       isBoundary ((c :: cs).get? (pat.length - 1)) ((c :: cs).get? pat.length) then
      (pos, pos + pat.length) ::
        finditerWB pat fuel ((c :: cs).get? (pat.length - 1)) (pos + pat.length)
          (cs.drop (pat.length - 1))
    else
      finditerWB pat fuel (some c) (pos + 1) cs

/-! ### Compression stages (compress_docs.py) -/

/-- `remove_articles(text)`: scan left to right; a position inside a code
block, preserved phrase or URL is copied; otherwise a leading `"a "`, `"an "`
or `"the "` (preceded by start-of-string or whitespace) is skipped; otherwise
the character is copied.  Protection is checked against the full original
text, which the loop never mutates. -/
def removeArticlesAux (full : List Char) : Nat → Option Char → Nat →
    List Char → List Char
  | _, _, _, [] => []
  | 0, _, _, _ :: _ => []
  | fuel + 1, prev, pos, c :: cs =>
    if isProtected full pos then
      c :: removeArticlesAux full fuel (some c) (pos + 1) cs
    else if (c :: cs).take 2 = "a ".toList &&
            (match prev with | none => true | some p => pyIsSpace p) then
      removeArticlesAux full fuel (some ' ') (pos + 2) (cs.drop 1)
    else if (c :: cs).take 3 = "an ".toList &&
            (match prev with | none => true | some p => pyIsSpace p) then
      removeArticlesAux full fuel (some ' ') (pos + 3) (cs.drop 2)
    else if (c :: cs).take 4 = "the ".toList &&
            (match prev with | none => true | some p => pyIsSpace p) then
      removeArticlesAux full fuel (some ' ') (pos + 4) (cs.drop 3)
    else
      c :: removeArticlesAux full fuel (some c) (pos + 1) cs

def remove_articles (text : List Char) : List Char :=
  removeArticlesAux text text.length none 0 text

/-- The case adjustment of `replace_common_words` (lines 331-339): the
replacement cased after the matched token (`islower` / `isupper` /
first-character-upper / verbatim, tested in that order). -/
def casedReplacement (matched repl : List Char) : List Char :=
  if pyIsLower matched then pyLower repl
  else if pyIsUpper matched then pyUpper repl
  else if headIsUpper matched then pyCapitalize repl
  else repl

/-- One entry of the `replace_common_words` loop: collect the whole-word
case-insensitive matches of `word` against the current text, then process
them in reverse order, skipping a match whose start is protected (protection
is evaluated against the text as already mutated by the later-position
replacements, exactly as in the source). -/
def applyReplacement (text : List Char) (word repl : List Char) : List Char :=
  let ms := finditerWB word text.length none 0 text
  ms.reverse.foldl
    (fun t se =>
      if isProtected t se.1 then t
      else
        let matched := (t.drop se.1).take (se.2 - se.1)
        t.take se.1 ++ casedReplacement matched repl ++ t.drop se.2)
    text

/-- `replace_common_words(text)`. -/
def replace_common_words (text : List Char) : List Char :=
  replacementsL.foldl (fun t wr => applyReplacement t wr.1 wr.2) text

/-- One entry of the `replace_symbols` loop: identical mechanism, but the
replacement is the fixed glyph with no case adjustment. -/
def applySymbol (text : List Char) (phrase symbol : List Char) : List Char :=
  let ms := finditerWB phrase text.length none 0 text
  ms.reverse.foldl
    (fun t se =>
      if isProtected t se.1 then t
      else t.take se.1 ++ symbol ++ t.drop se.2)
    text

/-- `replace_symbols(text)`. -/
def replace_symbols (text : List Char) : List Char :=
  symbolsL.foldl (fun t ps => applySymbol t ps.1 ps.2) text

/-- The vowel-dropping loop of `reduce_vowels`: consonants are copied; a vowel
is copied and the following vowels of the run are skipped. -/
def reduceWordVowelsF : Nat → List Char → List Char
  | _, [] => []
  | 0, _ :: _ => []
  | fuel + 1, c :: cs =>
    if !isVowel c then c :: reduceWordVowelsF fuel cs
    else c :: reduceWordVowelsF fuel (cs.dropWhile isVowel)

def reduceWordVowels (w : List Char) : List Char := reduceWordVowelsF w.length w

/-- `re.finditer(r'\b\w+\b', text)`: the maximal word-character runs with
their spans.  (With `\w+` between two `\b` the boundaries are automatic.) -/
def wordTokens : Nat → Nat → List Char → List (Nat × Nat × List Char)
  | _, _, [] => []
  | 0, _, _ :: _ => []
  | fuel + 1, pos, c :: cs =>
    if isWordChar c then
      let run := (c :: cs).takeWhile isWordChar
      (pos, pos + run.length, run) ::
        wordTokens fuel (pos + run.length) (cs.drop (run.length - 1))
    else
      wordTokens fuel (pos + 1) cs

/-- The per-word step of `reduce_vowels`: a word is kept verbatim when its
start is protected, its lowercase form is in the never-compress list, or its
length is at most 6; otherwise its vowel runs are collapsed. -/
def reduceWordStep (full : List Char) (t : Nat × Nat × List Char) :
    Nat × Nat × List Char :=
  if isProtected full t.1 || neverCompressL.contains (pyLower t.2.2) ||
     t.2.2.length ≤ 6 then t
  else (t.1, t.2.1, reduceWordVowels t.2.2)

/-- The rebuild loop of `reduce_vowels`: interleave the untouched separators
(taken from the original text by span) with the processed words. -/
def rebuildWords (full : List Char) (lastEnd : Nat) :
    List (Nat × Nat × List Char) → List Char
  | [] => full.drop lastEnd
  | (s, e, w) :: ws => (full.drop lastEnd).take (s - lastEnd) ++ w ++ rebuildWords full e ws

/-- `reduce_vowels(text)`.  (The source's `words.sort()` is a no-op: the
tokens are produced in increasing span order.) -/
def reduce_vowels (text : List Char) : List Char :=
  rebuildWords text 0 ((wordTokens text.length 0 text).map (reduceWordStep text))

/-! ### Pipeline driver -/

/-- Python `text.split('\n')`. -/
def splitLines : List Char → List (List Char)
  | [] => [[]]
  | c :: cs =>
    if c = '\n' then [] :: splitLines cs
    else
      match splitLines cs with
      | [] => [[c]]
      | l :: ls => (c :: l) :: ls

/-- Python `'\n'.join(lines)`. -/
def joinLines (ls : List (List Char)) : List Char :=
  (ls.intersperse ['\n']).flatten

/-- A line opens/closes a fence when it starts with the marker. -/
def isFenceLine (l : List Char) : Bool := "```".toList.isPrefixOf l

/-- The per-line loop shared by `compress_document` and
`decompress_document`: a fence line toggles the state and is kept verbatim, a
line inside a fence is kept verbatim, any other line goes through the given
per-line transformation. -/
def driveLines (f : List Char → List Char) (inCode : Bool) :
    List (List Char) → List (List Char)
  | [] => []
  | l :: ls =>
    if isFenceLine l then l :: driveLines f (!inCode) ls
    else if inCode then l :: driveLines f inCode ls
    else f l :: driveLines f inCode ls

/-- The `in_code_block` flag at each line, as the driver reaches it. -/
def codeFlags (inCode : Bool) : List (List Char) → List Bool
  | [] => []
  | l :: ls => inCode :: codeFlags (if isFenceLine l then !inCode else inCode) ls

/-- The compression applied to one non-code line, in source order. -/
def compressLine (l : List Char) : List Char :=
  reduce_vowels (replace_symbols (remove_articles (replace_common_words l)))

/-- `compress_document(text)`. -/
def compress_document (text : List Char) : List Char :=
  joinLines (driveLines compressLine false (splitLines text))

/-! ### Decompression tables (decompress.py) -/

/-- `EXPANSIONS` from decompress.py, in key first-insertion order (the
duplicate literal key `impl`, with an identical value, is collapsed per
Python dict-literal semantics). -/
def EXPANSIONS : List (String × String) := [
  ("fn", "function"),
  ("impl", "implementation"),
  ("param", "parameter"),
  ("config", "configuration"),
  ("app", "application"),
  ("db", "database"),
  ("auth", "authentication"),
  ("dir", "directory"),
  ("repo", "repository"),
  ("init", "initialize"),
  ("integ", "integration"),
  ("dev", "development"),
  ("prod", "production"),
  ("env", "environment"),
  ("docs", "documentation"),
  ("dist", "distribution"),
  ("arch", "architecture"),
  ("arg", "argument"),
  ("attr", "attribute"),
  ("bg", "background"),
  ("cert", "certificate"),
  ("cmd", "command"),
  ("comm", "communication"),
  ("conn", "connection"),
  ("desc", "description"),
  ("dest", "destination"),
  ("exec", "execute"),
  ("ext", "extension"),
  ("fig", "figure"),
  ("gen", "generate"),
  ("incl", "include"),
  ("info", "information"),
  ("lib", "library"),
  ("loc", "location"),
  ("max", "maximum"),
  ("min", "minimum"),
  ("msg", "message"),
  ("num", "number"),
  ("obj", "object"),
  ("opt", "option"),
  ("orig", "original"),
  ("pkg", "package"),
  ("pref", "preference"),
  ("proc", "process"),
  ("ref", "reference"),
  ("req", "requirement"),
  ("resp", "response"),
  ("spec", "specification"),
  ("src", "source"),
  ("std", "standard"),
  ("str", "string"),
  ("sync", "synchronize"),
  ("temp", "temporary"),
  ("usr", "user"),
  ("util", "utility"),
  ("val", "value"),
  ("var", "variable"),
  ("ver", "version"),
  ("mgmt", "management"),
  ("deps", "dependencies"),
  ("nm", "node_modules"),
  ("auto", "automatically"),
  ("js", "JavaScript"),
  ("ts", "TypeScript"),
  ("py", "Python"),
  ("rb", "Ruby"),
  ("go", "Go"),
  ("rs", "Rust"),
  ("cpp", "C++"),
  ("cs", "C#"),
  ("kt", "Kotlin"),
  ("sw", "Swift"),
  ("chk", "check if"),
  ("w/", "with"),
  ("w/o", "without"),
  ("b/c", "because"),
  ("thru", "through"),
  ("tho", "though"),
  ("btw", "by the way"),
  (".md", ".md"),
  (".json", ".json"),
  (".yaml", ".yaml"),
  (".yml", ".yml"),
  (".txt", ".txt"),
  (".log", ".log"),
  (".sh", ".sh"),
  (".py", ".py"),
  (".js", ".js"),
  (".ts", ".ts"),
  (".jsx", ".jsx"),
  (".tsx", ".tsx"),
  (".html", ".html"),
  (".css", ".css")]

def expansionsL : List (List Char × List Char) :=
  EXPANSIONS.map fun p => (p.1.toList, p.2.toList)

/-- Stable insertion into a list sorted by the given "keep `y` before `x`"
test; used to mirror Python's stable `sorted`. -/
def insStable (keepBefore : α → α → Bool) (x : α) : List α → List α
  | [] => [x]
  | y :: ys => if keepBefore y x then y :: insStable keepBefore x ys else x :: y :: ys

/-- Python `sorted(items, key=lambda kv: len(kv[0]), reverse=True)`: stable
descending sort by key length (ties keep insertion order: inserting the
items left to right, an item passes over every already-placed item of
greater or equal key length). -/
def sortByKeyLenDesc (l : List (List Char × List Char)) : List (List Char × List Char) :=
  l.foldl (fun acc x => insStable (fun y z => z.1.length ≤ y.1.length) x acc) []

/-- `re.sub(r'\b' + re.escape(abbrev) + r'\b', full, text, flags=re.IGNORECASE)`:
replace every leftmost non-overlapping whole-word match by `full` verbatim
(no case adjustment).  `prev` is the character before the scan position. -/
def subWB (pat rep : List Char) : Nat → Option Char → List Char → List Char
  | _, _, [] => []
  | 0, _, _ :: _ => []
  | fuel + 1, prev, c :: cs =>
    if isBoundary prev (some c) && ciPrefix pat (c :: cs) &&
       isBoundary ((c :: cs).get? (pat.length - 1)) ((c :: cs).get? pat.length) then
      rep ++ subWB pat rep fuel ((c :: cs).get? (pat.length - 1)) (cs.drop (pat.length - 1))
    else
      c :: subWB pat rep fuel (some c) cs

/-- `expand_abbreviations(text)`: the expansions sorted by key length
descending, each applied as a whole-word case-insensitive substitution. -/
def expand_abbreviations (text : List Char) : List Char :=
  (sortByKeyLenDesc expansionsL).foldl (fun t kv => subWB kv.1 kv.2 t.length none t) text

/-- `expand_word(word)`: dictionary lookup of the lowercased word, identity on
a miss. -/
def expand_word (w : List Char) : List Char :=
  match expansionsL.lookup (pyLower w) with
  | some v => v
  | none => w

/-- Python `value.split(' → ')` (all non-overlapping leftmost separators). -/
def splitOnSubF (sep : List Char) : Nat → List Char → List (List Char)
  | _, [] => [[]]
  | 0, _ :: _ => [[]]
  | fuel + 1, c :: cs =>
    if sep.isPrefixOf (c :: cs) then
      [] :: splitOnSubF sep fuel (cs.drop (sep.length - 1))
    else
      match splitOnSubF sep fuel cs with
      | [] => [[c]]
      | l :: ls => (c :: l) :: ls

def splitOnSub (sep l : List Char) : List (List Char) := splitOnSubF sep l.length l

/-- `expand_yaml_line(match)` applied to the two captured groups of
`^- (\w+): (.+)$`. -/
def expand_yaml_line (key value : List Char) : List Char :=
  if key = "auth".toList || key = "db".toList || key = "api".toList ||
     key = "cache".toList || key = "queue".toList then
    "- The ".toList ++ expand_word key ++ " system uses ".toList ++ value
  else if key = "chk".toList then
    "- Check if ".toList ++ value
  else if key = "run".toList then
    match splitOnSub " → ".toList value with
    | [p0, p1] => "- Run ".toList ++ p0 ++ " to ".toList ++ p1
    | _ => "- Run ".toList ++ value
  else if key = "if".toList then
    match splitOnSub " → ".toList value with
    | [p0, p1] => "- If ".toList ++ p0 ++ ", then ".toList ++ p1
    | _ => "- If ".toList ++ value
  else
    "- ".toList ++ expand_word key ++ ": ".toList ++ value

/-- The first compressed pattern, `re.sub(r'^- (\w+): (.+)$', expand_yaml_line,
line, flags=re.MULTILINE)` on a single (newline-free) line: `- `, a maximal
word run (no backtracking can help, since the run is followed by a non-word
character), then `: `, then a nonempty remainder. -/
def subYamlLine (line : List Char) : List Char :=
  if "- ".toList.isPrefixOf line then
    let rest := line.drop 2
    let key := rest.takeWhile isWordChar
    if key.isEmpty then line
    else
      match rest.drop key.length with
      | ':' :: ' ' :: value =>
        if value.isEmpty then line else expand_yaml_line key value
      | _ => line
  else line

/-- The second compressed pattern, `re.sub(r'(\w+)\s*→\s*(.+)', r'\1 returns \2',
line)`: at the leftmost position where a word run, optional whitespace, the
arrow glyph, optional whitespace and a nonempty remainder follow each other,
rewrite into "`<left> returns <right>`".  The match always extends to the end
of the line, so at most one substitution happens; the trailing `\s*` gives one
space back when the remainder would otherwise be empty. -/
def subArrow : List Char → List Char
  | [] => []
  | c :: cs =>
    if isWordChar c then
      let w := (c :: cs).takeWhile isWordChar
      let afterW := (c :: cs).dropWhile isWordChar
      let afterSp := afterW.dropWhile pyIsSpace
      match afterSp with
      | '→' :: rest =>
        let g2 := rest.dropWhile pyIsSpace
        if g2.isEmpty then
          if (rest.takeWhile pyIsSpace).isEmpty then c :: subArrow cs
          else w ++ " returns ".toList ++ [(rest.takeWhile pyIsSpace).getLast!]
        else w ++ " returns ".toList ++ g2
      | _ => c :: subArrow cs
    else c :: subArrow cs

/-- The third compressed pattern, `re.sub(r'(\w+)/(\w+)\.(\w+)', expand_path,
line)`: leftmost non-overlapping `dir/file.ext` shapes, with `expand_path`
expanding the directory and file name words but not the extension. -/
def subPathF : Nat → List Char → List Char
  | _, [] => []
  | 0, _ :: _ => []
  | fuel + 1, c :: cs =>
    if isWordChar c then
      let w1 := (c :: cs).takeWhile isWordChar
      match (c :: cs).drop w1.length with
      | '/' :: r2 =>
        let w2 := r2.takeWhile isWordChar
        if w2.isEmpty then c :: subPathF fuel cs
        else
          match r2.drop w2.length with
          | '.' :: r4 =>
            let w3 := r4.takeWhile isWordChar
            if w3.isEmpty then c :: subPathF fuel cs
            else
              expand_word w1 ++ ['/'] ++ expand_word w2 ++ ['.'] ++ w3 ++
                subPathF fuel (cs.drop (w1.length + 1 + w2.length + 1 + w3.length - 1))
          | _ => c :: subPathF fuel cs
      | _ => c :: subPathF fuel cs
    else c :: subPathF fuel cs

def subPath (l : List Char) : List Char := subPathF l.length l

/-- `known_restorations` from `restore_word_vowels` (decompress.py), a lookup
dictionary; the duplicate literal key `cls` (first `close`, later `class`) is
collapsed to its final value `class` per Python dict semantics. -/
def knownRestorations : List (String × String) := [
  ("prjct", "project"), ("srvc", "service"), ("cmpnt", "component"),
  ("tst", "test"), ("dbg", "debug"), ("tmp", "temporary"), ("rmv", "remove"),
  ("crt", "create"), ("updt", "update"), ("del", "delete"), ("rtrn", "return"),
  ("err", "error"), ("func", "function"), ("mthd", "method"),
  ("prm", "parameter"), ("vld", "valid"), ("invld", "invalid"),
  ("enbld", "enabled"), ("dsbld", "disabled"), ("actv", "active"),
  ("inactv", "inactive"), ("pndng", "pending"), ("sccss", "success"),
  ("fail", "failure"), ("hndlr", "handler"), ("mdlwr", "middleware"),
  ("rtr", "router"), ("ctrl", "controller"), ("mdl", "model"),
  ("schma", "schema"), ("vldtn", "validation"), ("sess", "session"),
  ("tkn", "token"), ("pwd", "password"), ("hsh", "hash"), ("slt", "salt"),
  ("encr", "encrypt"), ("decr", "decrypt"), ("hdr", "header"),
  ("bdy", "body"), ("qry", "query"), ("prms", "params"), ("sts", "status"),
  ("cd", "code"), ("dflt", "default"), ("len", "length"), ("sz", "size"),
  ("cnt", "count"), ("idx", "index"), ("pos", "position"), ("strt", "start"),
  ("frst", "first"), ("lst", "last"), ("prev", "previous"), ("nxt", "next"),
  ("curr", "current"), ("prsnt", "present"), ("abst", "absent"),
  ("avail", "available"), ("unavail", "unavailable"),
  ("disconn", "disconnection"), ("tm", "time"), ("dt", "date"),
  ("yr", "year"), ("mo", "month"), ("dy", "day"), ("hr", "hour"),
  ("sec", "second"), ("ms", "millisecond"), ("tz", "timezone"),
  ("fmt", "format"), ("prs", "parse"), ("conv", "convert"),
  ("calc", "calculate"), ("comp", "compute"), ("bld", "build"),
  ("inst", "install"), ("cfg", "configure"), ("stp", "stop"),
  ("rst", "restart"), ("pse", "pause"), ("rsme", "resume"),
  ("hndl", "handle"), ("mon", "monitor"), ("trc", "trace"),
  ("wrn", "warning"), ("notif", "notification"), ("alrt", "alert"),
  ("evt", "event"), ("trgr", "trigger"), ("lstnr", "listener"),
  ("emt", "emit"), ("brdcst", "broadcast"), ("sub", "subscribe"),
  ("unsub", "unsubscribe"), ("pub", "publish"), ("q", "queue"),
  ("stck", "stack"), ("buff", "buffer"), ("strm", "stream"),
  ("btch", "batch"), ("sngl", "single"), ("mult", "multiple"),
  ("flt", "filter"), ("rdce", "reduce"), ("grp", "group"),
  ("aggr", "aggregate"), ("splt", "split"), ("mrg", "merge"),
  ("comb", "combine"), ("extr", "extract"), ("enc", "encode"),
  ("dec", "decode"), ("ser", "serialize"), ("deser", "deserialize"),
  ("cmp", "compress"), ("decmp", "decompress"), ("rd", "read"),
  ("wr", "write"), ("apnd", "append"), ("mv", "move"), ("cp", "copy"),
  ("rnm", "rename"), ("pth", "path"), ("fl", "file"), ("fldr", "folder"),
  ("perm", "permission"), ("own", "owner"), ("crtd", "created"),
  ("mdfd", "modified"), ("accssd", "accessed"), ("lck", "lock"),
  ("unlck", "unlock"), ("opn", "open"), ("cls", "class"), ("sv", "save"),
  ("ld", "load"), ("imprt", "import"), ("exprt", "export"),
  ("incl", "include"), ("excl", "exclude"), ("dpnd", "depend"),
  ("dpndncy", "dependency"), ("frmwrk", "framework"), ("plgn", "plugin"),
  ("wdgt", "widget"), ("elm", "element"), ("prop", "property"),
  ("cstm", "custom"), ("ovrd", "override"), ("inhrt", "inherit"),
  ("extnd", "extend"), ("abstr", "abstract"), ("intrf", "interface"),
  ("cnstr", "constructor"), ("dstr", "destructor"), ("priv", "private"),
  ("prot", "protected"), ("stat", "static"), ("thrw", "throw"),
  ("ctch", "catch"), ("finlly", "finally"), ("elif", "else if"),
  ("swtch", "switch"), ("brk", "break"), ("cont", "continue"),
  ("iter", "iterate"), ("recur", "recursive"), ("prom", "promise"),
  ("rslv", "resolve"), ("rjct", "reject"), ("obs", "observer"),
  ("subj", "subject"), ("vec", "vector"), ("dict", "dictionary"),
  ("tbl", "table"), ("grph", "graph"), ("prnt", "parent"),
  ("chld", "child"), ("sib", "sibling"), ("anc", "ancestor"),
  ("dpth", "depth"), ("hght", "height"), ("lvl", "level"),
  ("trvrs", "traverse"), ("srch", "search"), ("fnd", "find"),
  ("ins", "insert"), ("upd", "update"), ("repl", "replace"),
  ("rev", "reverse"), ("shffl", "shuffle"), ("rndm", "random"),
  ("avg", "average"), ("cap", "capacity"), ("lmt", "limit"),
  ("thr", "threshold"), ("rng", "range"), ("bnd", "bound"),
  ("loc", "location"), ("coord", "coordinate"), ("wdth", "width"),
  ("rad", "radius"),
  ("diam", "diameter"), ("vol", "volume"), ("wght", "weight"),
  ("dens", "density"), ("press", "pressure"), ("vel", "velocity"),
  ("acc", "acceleration"), ("frc", "force"), ("enrg", "energy"),
  ("pwr", "power"), ("freq", "frequency"), ("amp", "amplitude"),
  ("phs", "phase"), ("wvlngth", "wavelength"), ("clr", "color"),
  ("brght", "brightness"), ("contr", "contrast"), ("opac", "opacity"),
  ("transp", "transparency"), ("vis", "visible"), ("hid", "hidden"),
  ("dspl", "display"), ("rndr", "render"), ("pnt", "paint"),
  ("refr", "refresh"), ("anim", "animate"), ("trans", "transition"),
  ("transf", "transform"), ("rot", "rotate"), ("scl", "scale"),
  ("skw", "skew"), ("flp", "flip"), ("mirr", "mirror"), ("algn", "align"),
  ("cntr", "center"), ("lft", "left"), ("rght", "right"), ("btm", "bottom"),
  ("horiz", "horizontal"), ("vert", "vertical"), ("diag", "diagonal"),
  ("prll", "parallel"), ("perp", "perpendicular"), ("tang", "tangent"),
  ("norm", "normal"), ("curv", "curve"), ("rect", "rectangle"),
  ("sqr", "square"), ("circ", "circle"), ("ellps", "ellipse"),
  ("poly", "polygon"), ("tri", "triangle"), ("quad", "quadrilateral"),
  ("pent", "pentagon"), ("hex", "hexagon"), ("oct", "octagon"),
  ("sph", "sphere"), ("cyl", "cylinder"), ("pyr", "pyramid"),
  ("prsm", "prism")]

def knownRestorationsL : List (List Char × List Char) :=
  knownRestorations.map fun p => (p.1.toList, p.2.toList)

/-- One of the consonant-class characters `[bcdfghjklmnpqrstvwxyz]` (with
`re.IGNORECASE`, so both cases): a letter that is not a vowel. -/
def isConsonant (c : Char) : Bool := isLetterA c && !isVowel c

/-- Does the word contain three or more consecutive consonants? -/
def hasTripleConsonant : List Char → Bool
  | a :: b :: c :: rest =>
    (isConsonant a && isConsonant b && isConsonant c) ||
      hasTripleConsonant (b :: c :: rest)
  | _ => false

/-- `restore_word_vowels(match)`: look the lowercased word up in the fixed
dictionary; on a hit re-case it after the original token (`isupper` /
first-character-upper / verbatim); on a miss return the word unchanged. -/
def restore_word_vowels (w : List Char) : List Char :=
  match knownRestorationsL.lookup (pyLower w) with
  | some full =>
    if pyIsUpper w then pyUpper full
    else if headIsUpper w then pyCapitalize full
    else full
  | none => w

/-- `restore_vowels(text)`: `re.sub` of
`\b(\w*[bcdfghjklmnpqrstvwxyz]{3,}\w*)\b` (IGNORECASE) with
`restore_word_vowels`.  A match of this pattern is exactly a maximal
word-character run containing a run of three or more consonants (the leading
and trailing `\w*` absorb the rest of the run, and no position strictly
inside a run satisfies `\b`). -/
def restoreVowelsGo : Nat → List Char → List Char
  | _, [] => []
  | 0, _ :: _ => []
  | fuel + 1, c :: cs =>
    if isWordChar c then
      let run := (c :: cs).takeWhile isWordChar
      (if hasTripleConsonant run then restore_word_vowels run else run) ++
        restoreVowelsGo fuel (cs.drop (run.length - 1))
    else c :: restoreVowelsGo fuel cs

def restore_vowels (text : List Char) : List Char :=
  restoreVowelsGo text.length text

/-- The decompression applied to one non-code line, in source order:
abbreviation expansion, then the three compressed patterns, then vowel
restoration.  (`add_articles` is commented out in the source.) -/
def decompressLine (l : List Char) : List Char :=
  restore_vowels (subPath (subArrow (subYamlLine (expand_abbreviations l))))

/-- `decompress_document(text)`. -/
def decompress_document (text : List Char) : List Char :=
  joinLines (driveLines decompressLine false (splitLines text))

/-! ### The structured-log expander (`expand_dev_log_yaml`)

The YAML parser is the third-party `yaml.safe_load`, outside this repository;
it is modelled as an abstract parameter `parse` returning `none` on a parse
error.  The entry loop is modelled in an exception monad: `none` stands for a
Python exception, which the bare `except:` turns into returning the input
unchanged.  Python operations that do not raise are modelled by their value:
`key in entry` is dictionary-key / list-element / substring membership
depending on the entry's type, f-string interpolation `str()`-renders a value
of any type, a falsy field value skips its section, and iterating a truthy
`changes`/`issues` value yields its items (list), its characters (string) or
its keys (dictionary).  Dictionary keys are modelled as strings and YAML
floats are not modelled (the dev-log entries carry strings and lists). -/

/-- A parsed YAML-like value. -/
inductive Yaml where
  | str : List Char → Yaml
  | num : Int → Yaml
  | bool : Bool → Yaml
  | null : Yaml
  | arr : List Yaml → Yaml
  | dict : List (List Char × Yaml) → Yaml
  deriving Repr, BEq

/-- Python truthiness of a YAML-loaded value. -/
def yamlTruthy : Yaml → Bool
  | Yaml.null => false
  | Yaml.bool b => b
  | Yaml.num n => n != 0
  | Yaml.str s => !s.isEmpty
  | Yaml.arr l => !l.isEmpty
  | Yaml.dict l => !l.isEmpty

/-- Python `pat in s` for strings: substring membership. -/
def isSubstringOf (pat : List Char) : List Char → Bool
  | [] => pat.isEmpty
  | c :: cs => pat.isPrefixOf (c :: cs) || isSubstringOf pat cs

mutual

/-- Python `repr()` of a YAML-loaded value, used inside containers (string
escaping inside a `repr` is not modelled beyond the surrounding quotes). -/
def pyReprY : Yaml → List Char
  | Yaml.str s => Char.ofNat 39 :: (s ++ [Char.ofNat 39])
  | Yaml.num n => (toString n).toList
  | Yaml.bool b => if b then "True".toList else "False".toList
  | Yaml.null => "None".toList
  | Yaml.arr items => '[' :: (pyReprArr items ++ [']'])
  | Yaml.dict kvs => Char.ofNat 123 :: (pyReprDict kvs ++ [Char.ofNat 125])

def pyReprArr : List Yaml → List Char
  | [] => []
  | [v] => pyReprY v
  | v :: rest => pyReprY v ++ ", ".toList ++ pyReprArr rest

def pyReprDict : List (List Char × Yaml) → List Char
  | [] => []
  | [kv] => Char.ofNat 39 :: (kv.1 ++ (Char.ofNat 39 :: ": ".toList)) ++ pyReprY kv.2
  | kv :: rest =>
    Char.ofNat 39 :: (kv.1 ++ (Char.ofNat 39 :: ": ".toList)) ++ pyReprY kv.2 ++
      ", ".toList ++ pyReprDict rest

end

/-- Python `str()` of a YAML-loaded value, as an f-string interpolates it: a
string renders verbatim, everything else as its `repr`. -/
def pyStr : Yaml → List Char
  | Yaml.str s => s
  | v => pyReprY v

/-- Python `key in entry`: key membership for a dictionary, element
membership for a list, substring membership for a string; on an integer,
boolean or `None` the `in` raises `TypeError`, modelled as `none`. -/
def pyContains (entry : Yaml) (key : List Char) : Option Bool :=
  match entry with
  | Yaml.dict d => some (d.lookup key).isSome
  | Yaml.arr items => some (items.contains (Yaml.str key))
  | Yaml.str s => some (isSubstringOf key s)
  | _ => none

/-- Python `entry[key]`, reached only after `key in entry` was true: a
dictionary yields its value; indexing a list or a string with a string key
raises `TypeError`, modelled as `none`. -/
def pyIndex (entry : Yaml) (key : List Char) : Option Yaml :=
  match entry with
  | Yaml.dict d => d.lookup key
  | _ => none

/-- The items of a list-valued `changes`/`issues` field: each goes through
`expand_abbreviations`, whose `re.sub` raises on a non-string item. -/
def yamlStrList : List Yaml → Option (List (List Char))
  | [] => some []
  | Yaml.str s :: rest =>
    match yamlStrList rest with
    | some l => some (s :: l)
    | none => none
  | _ => none

/-- Python `for x in value` over a truthy `changes`/`issues` value, with each
item fed to `expand_abbreviations`: a list yields its items, which must all
be strings; a string yields its characters as one-character strings; a
dictionary yields its keys; a number or boolean is not iterable and raises. -/
def pyIterStrings : Yaml → Option (List (List Char))
  | Yaml.arr items => yamlStrList items
  | Yaml.str s => some (s.map fun c => [c])
  | Yaml.dict kvs => some (kvs.map Prod.fst)
  | _ => none

/-- The `changes`/`issues` section of one entry
(`if key in entry and entry[key]:`): absent key or falsy value emit nothing;
a truthy value is iterated and each item expanded into a bullet. -/
def renderSection (e : Yaml) (key heading : List Char) :
    Option (List (List Char)) :=
  match pyContains e key with
  | none => none
  | some false => some []
  | some true =>
    match pyIndex e key with
    | none => none
    | some v =>
      if !yamlTruthy v then some []
      else
        match pyIterStrings v with
        | none => none
        | some items =>
          some (heading ::
            items.map (fun s => "- ".toList ++ expand_abbreviations s) ++ [[]])

/-- The `t` heading of one entry (`if 't' in entry:`): no truthiness check,
and the value is f-string-interpolated whatever its type. -/
def renderHeading (e : Yaml) : Option (List (List Char)) :=
  match pyContains e "t".toList with
  | none => none
  | some false => some []
  | some true =>
    match pyIndex e "t".toList with
    | none => none
    | some v => some ["## ".toList ++ pyStr v, []]

/-- The `next` section of one entry (`if 'next' in entry and entry['next']:`):
absent key or falsy value emit nothing; a truthy value goes through
`expand_abbreviations`, which raises unless it is a string. -/
def renderNext (e : Yaml) : Option (List (List Char)) :=
  match pyContains e "next".toList with
  | none => none
  | some false => some []
  | some true =>
    match pyIndex e "next".toList with
    | none => none
    | some v =>
      if !yamlTruthy v then some []
      else
        match v with
        | Yaml.str s =>
          some ["### Next Steps".toList, "- ".toList ++ expand_abbreviations s, []]
        | _ => none

/-- One iteration of the entry loop: the four sections in source order, then
unconditionally `---` and a blank line (an entry contributing no section,
such as an empty list or an empty dictionary, still emits the separator);
`none` is a raised exception. -/
def renderEntry (e : Yaml) : Option (List (List Char)) :=
  match renderHeading e, renderSection e "changes".toList "### What Changed".toList,
        renderSection e "issues".toList "### Issues Encountered".toList,
        renderNext e with
  | some a, some b, some c, some d => some (a ++ b ++ c ++ d ++ ["---".toList, []])
  | _, _, _, _ => none

/-- Render all entries, failing if any entry raises. -/
def renderEntries : List Yaml → Option (List (List Char))
  | [] => some []
  | e :: es =>
    match renderEntry e, renderEntries es with
    | some l, some ls => some (l ++ ls)
    | _, _ => none

/-- `expand_dev_log_yaml(yaml_content)`, parameterised by the external YAML
parser: a parse failure, a parsed value that is not a list, or an exception
raised while rendering an entry all return the input unchanged; otherwise the
rendered lines are joined with newlines. -/
def expand_dev_log_yaml (parse : List Char → Option Yaml)
    (content : List Char) : List Char :=
  match parse content with
  | none => content
  | some v =>
    match v with
    | Yaml.arr entries =>
      match renderEntries entries with
      | some lines => joinLines lines
      | none => content
    | _ => content


/-! ### Helper lemmas about the pipeline driver -/

theorem driveLines_length (f : List Char → List Char) (b : Bool)
    (ls : List (List Char)) : (driveLines f b ls).length = ls.length := by
  induction ls generalizing b with
  | nil => rfl
  | cons l ls ih =>
    by_cases hf : isFenceLine l
    · simp [driveLines, hf, ih]
    · by_cases hb : b <;> simp [driveLines, hf, hb, ih]

/-- A line the driver reaches with the fence flag set is emitted verbatim. -/
theorem driveLines_getD_of_flag (f : List Char → List Char) (b : Bool)
    (ls : List (List Char)) (i : Nat)
    (h : (codeFlags b ls).getD i false = true) :
    (driveLines f b ls).getD i [] = ls.getD i [] := by
  induction ls generalizing b i with
  | nil => simp [codeFlags] at h
  | cons l ls ih =>
    cases i with
    | zero =>
      have hb : b = true := by simpa [codeFlags] using h
      subst hb
      by_cases hf : isFenceLine l <;> simp [driveLines, hf]
    | succ i =>
      have h' : (codeFlags (if isFenceLine l then !b else b) ls).getD i false = true := by
        simpa [codeFlags] using h
      have step : (driveLines f b (l :: ls)).getD (i + 1) [] =
          (driveLines f (if isFenceLine l then !b else b) ls).getD i [] := by
        by_cases hf : isFenceLine l
        · simp [driveLines, hf]
        · cases b <;> simp [driveLines, hf]
      rw [step, List.getD_cons_succ]
      exact ih _ i h'

/-- The fence flag at line `j` is the initial flag xor-ed with the parity of
the number of fence lines among the first `j` lines: the toggle alternates
strictly. -/
theorem codeFlags_getD_parity (b : Bool) (ls : List (List Char)) (j : Nat)
    (hj : j < ls.length) :
    (codeFlags b ls).getD j false =
      xor b (decide (((ls.take j).countP isFenceLine) % 2 = 1)) := by
  induction j generalizing b ls with
  | zero =>
    cases ls with
    | nil => simp at hj
    | cons l ls => simp [codeFlags]
  | succ j ih =>
    cases ls with
    | nil => simp at hj
    | cons l ls =>
      have hj' : j < ls.length := by simpa using hj
      have step := ih (if isFenceLine l then !b else b) ls hj'
      simp only [codeFlags, List.getD_cons_succ, step, List.take_succ_cons,
        List.countP_cons]
      by_cases hf : isFenceLine l
      · simp only [hf, if_true]
        by_cases ho : (ls.take j).countP isFenceLine % 2 = 1
        · have : ((ls.take j).countP isFenceLine + 1) % 2 = 0 := by omega
          simp [ho, this]
        · have : ((ls.take j).countP isFenceLine + 1) % 2 = 1 := by omega
          simp [ho, this]
      · simp [hf]

/-! ### Helper lemmas about the fence-marker scan -/

/-- Every marker the scan reports lies at or after the scan position. -/
theorem scanMarkersAux_ge (fuel : Nat) :
    ∀ (prev : Option Char) (pos : Nat) (l : List Char),
      ∀ m ∈ scanMarkersAux fuel prev pos l, pos ≤ m := by
  induction fuel with
  | zero =>
    intro prev pos l m hm
    cases l <;> simp [scanMarkersAux] at hm
  | succ fuel ih =>
    intro prev pos l m hm
    cases l with
    | nil => simp [scanMarkersAux] at hm
    | cons c cs =>
      simp only [scanMarkersAux] at hm
      by_cases h3 : (c :: cs).take 3 = "```".toList
      · by_cases hesc : prev = some '\\'
        · rw [if_pos h3, if_pos hesc] at hm
          have := ih _ _ _ m hm
          omega
        · rw [if_pos h3, if_neg hesc] at hm
          rcases List.mem_cons.mp hm with h | h
          · omega
          · have := ih _ _ _ m h
            omega
      · rw [if_neg h3] at hm
        have := ih _ _ _ m hm
        omega

/-- The reported marker positions are strictly increasing. -/
theorem scanMarkersAux_pairwise (fuel : Nat) :
    ∀ (prev : Option Char) (pos : Nat) (l : List Char),
      (scanMarkersAux fuel prev pos l).Pairwise (· < ·) := by
  induction fuel with
  | zero =>
    intro prev pos l
    cases l <;> simp [scanMarkersAux]
  | succ fuel ih =>
    intro prev pos l
    cases l with
    | nil => simp [scanMarkersAux]
    | cons c cs =>
      simp only [scanMarkersAux]
      by_cases h3 : (c :: cs).take 3 = "```".toList
      · by_cases hesc : prev = some '\\'
        · rw [if_pos h3, if_pos hesc]; exact ih _ _ _
        · rw [if_pos h3, if_neg hesc]
          refine List.pairwise_cons.mpr ⟨?_, ih _ _ _⟩
          intro m hm
          have := scanMarkersAux_ge fuel _ _ _ m hm
          omega
      · rw [if_neg h3]; exact ih _ _ _

theorem scanMarkers_pairwise (text : List Char) :
    (scanMarkers text).Pairwise (· < ·) :=
  scanMarkersAux_pairwise text.length none 0 text

/-! ### Claim theorems -/

/-- C1: every line of a document that the driver reaches inside a fenced code
block (the running toggle is on — which includes every remaining line after
an unterminated fence) is byte-identical before and after a full compress
pass and before and after a full decompress pass; the fence toggle
alternates strictly (the flag at line `j` is exactly the parity of the
fence-opening lines before it). -/
theorem C1_fenced_lines_inviolate (text : List Char) (i : Nat)
    (h : (codeFlags false (splitLines text)).getD i false = true) :
    compress_document text = joinLines (driveLines compressLine false (splitLines text)) ∧
    decompress_document text = joinLines (driveLines decompressLine false (splitLines text)) ∧
    (driveLines compressLine false (splitLines text)).length = (splitLines text).length ∧
    (driveLines decompressLine false (splitLines text)).length = (splitLines text).length ∧
    (driveLines compressLine false (splitLines text)).getD i [] = (splitLines text).getD i [] ∧
    (driveLines decompressLine false (splitLines text)).getD i [] = (splitLines text).getD i [] ∧
    (∀ j, j < (splitLines text).length →
      (codeFlags false (splitLines text)).getD j false =
        decide ((((splitLines text).take j).countP isFenceLine) % 2 = 1)) := by
  refine ⟨rfl, rfl, driveLines_length _ _ _, driveLines_length _ _ _,
    driveLines_getD_of_flag _ _ _ _ h, driveLines_getD_of_flag _ _ _ _ h, ?_⟩
  intro j hj
  simpa using codeFlags_getD_parity false (splitLines text) j hj

/-- Witness for C1 at the document `"x\n```\ncode"`, whose fence is
unterminated: line 2 is reached with the flag on and survives both passes
verbatim. -/
theorem C1_witness :
    (codeFlags false (splitLines ("x\n```\ncode".toList))).getD 2 false = true ∧
    (driveLines compressLine false (splitLines ("x\n```\ncode".toList))).getD 2 [] =
      "code".toList ∧
    (driveLines decompressLine false (splitLines ("x\n```\ncode".toList))).getD 2 [] =
      "code".toList := by
  have h : (codeFlags false (splitLines ("x\n```\ncode".toList))).getD 2 false = true := by
    decide
  have main := C1_fenced_lines_inviolate ("x\n```\ncode".toList) 2 h
  refine ⟨h, ?_, ?_⟩
  · rw [main.2.2.2.2.1]; decide
  · rw [main.2.2.2.2.2.1]; decide

/-- C2 counterexample: the decompression expansion does not case the long
form after the matched token: the all-uppercase token `FN` expands to the
lowercase `function`, not to the upper-cased long form. -/
theorem C2_cex :
    expand_abbreviations ("FN".toList) = "function".toList ∧
    pyIsUpper ("FN".toList) = true ∧
    "function".toList ≠ pyUpper ("function".toList) := by
  refine ⟨by decide, by decide, by decide⟩

/-- C2 amended: the compression substitution cases its replacement to the
matched token's casing pattern (all-lower → lower, all-upper → upper,
capitalized-first → capitalized, otherwise verbatim), as the general
characterisation of its case-adjustment step and concrete full-pipeline
instances show; the decompression expansion instead inserts the vocabulary's
long form verbatim, so every case variant of an abbreviation expands to the
same literal text. -/
theorem C2_amended :
    (∀ matched repl : List Char,
      (pyIsLower matched = true → casedReplacement matched repl = pyLower repl) ∧
      (pyIsLower matched = false → pyIsUpper matched = true →
        casedReplacement matched repl = pyUpper repl) ∧
      (pyIsLower matched = false → pyIsUpper matched = false →
        headIsUpper matched = true → casedReplacement matched repl = pyCapitalize repl) ∧
      (pyIsLower matched = false → pyIsUpper matched = false →
        headIsUpper matched = false → casedReplacement matched repl = repl)) ∧
    replace_common_words ("function".toList) = "fn".toList ∧
    replace_common_words ("FUNCTION".toList) = "FN".toList ∧
    replace_common_words ("Function".toList) = "Fn".toList ∧
    replace_common_words ("mcp".toList) = pyLower ("Model Context Protocol".toList) ∧
    replace_common_words ("MCP".toList) = pyUpper ("Model Context Protocol".toList) ∧
    replace_common_words ("Mcp".toList) = pyCapitalize ("Model Context Protocol".toList) ∧
    expand_abbreviations ("fn".toList) = "function".toList ∧
    expand_abbreviations ("Fn".toList) = "function".toList := by
  refine ⟨?_, by decide, by decide, by decide, by decide, by decide, by decide,
    by decide, by decide⟩
  intro matched repl
  refine ⟨?_, ?_, ?_, ?_⟩ <;> intro h1 <;>
    first
    | (intro h2 h3; simp [casedReplacement, h1, h2, h3])
    | (intro h2; simp [casedReplacement, h1, h2])
    | simp [casedReplacement, h1]

/-- Witness for C2 at concrete matched tokens and replacements. -/
theorem C2_witness :
    casedReplacement ("FN".toList) ("fn".toList) = "FN".toList ∧
    casedReplacement ("Fn".toList) ("fn".toList) = "Fn".toList := by
  constructor
  · have h := (C2_amended.1 ("FN".toList) ("fn".toList)).2.1 (by decide) (by decide)
    rw [h]; decide
  · have h := (C2_amended.1 ("Fn".toList) ("fn".toList)).2.2.1 (by decide) (by decide)
      (by decide)
    rw [h]; decide

/-- C3 counterexample: `"the"` is in the never-compress set, yet article
elision removes it. -/
theorem C3_cex :
    NEVER_COMPRESS.contains "the" = true ∧
    remove_articles ("the cat".toList) = "cat".toList := by
  refine ⟨by decide, by decide⟩

/-- C3 amended: every token of the never-compress set is emitted unchanged by
vowel reduction (here: each as a standalone text, and mixed with reducible
neighbours), but article elision does not consult the set and elides the
articles — including `"the"`, which the set contains. -/
theorem C3_amended :
    (NEVER_COMPRESS.all fun w => reduce_vowels w.toList == w.toList) = true ∧
    reduce_vowels ("test breaking code".toList) = "test breking code".toList := by
  refine ⟨by decide, by decide⟩

/-- C5 counterexample: `reduce_vowels "queueing"` is `"qung"`, not the
claimed `"queing"`. -/
theorem C5_cex :
    reduce_vowels ("queueing".toList) = "qung".toList ∧
    "qung".toList ≠ "queing".toList := by
  refine ⟨by decide, by decide⟩

/-- C5 amended: `"queueing"` has the single maximal vowel run `"ueuei"`
(the claimed runs `"uee"`, `"ei"` are not maximal), so only its first vowel
`u` survives and the result is literally `"qung"`: first-in-run kept, rest of
the run dropped, consonants untouched. -/
theorem C5_amended :
    reduce_vowels ("queueing".toList) = "qung".toList ∧
    reduceWordVowels ("queueing".toList) = "qung".toList := by
  refine ⟨by decide, by decide⟩

/-- C6: vocabulary substitution is whole-word: `"unfunctional"` is not
touched when the term `"function"` is compressed, neither standalone nor next
to a real occurrence of the term. -/
theorem C6_word_boundary :
    replace_common_words ("unfunctional function".toList) = "unfunctional fn".toList ∧
    replace_common_words ("unfunctional".toList) = "unfunctional".toList := by
  refine ⟨by decide, by decide⟩

/-- C7: decompression expands longest keys first: `"w/o"`, which has the
shorter abbreviation `"w/"` as a prefix, expands to `"without"` with no
dangling remainder, and the sort really places `"w/o"` before `"w/"`. -/
theorem C7_longest_first :
    expand_abbreviations ("w/o".toList) = "without".toList ∧
    ((sortByKeyLenDesc expansionsL).map Prod.fst).indexOf ("w/o".toList) <
      ((sortByKeyLenDesc expansionsL).map Prod.fst).indexOf ("w/".toList) := by
  refine ⟨by decide, by decide⟩

/-- C8: the structured-log expander returns its input unchanged whenever the
parse does not yield a list (parse error or non-list value); being a total
function, it never raises. -/
theorem C8_nonlist_passthrough (parse : List Char → Option Yaml)
    (content : List Char) (h : ∀ l, parse content ≠ some (Yaml.arr l)) :
    expand_dev_log_yaml parse content = content := by
  unfold expand_dev_log_yaml
  cases hp : parse content with
  | none => rfl
  | some v =>
    cases v with
    | arr l => exact absurd hp (h l)
    | str s => rfl
    | num n => rfl
    | bool b => rfl
    | null => rfl
    | dict d => rfl

/-- Witness for C8: a failing parse and a non-list parse both pass the input
through. -/
theorem C8_witness :
    expand_dev_log_yaml (fun _ => none) ("hello".toList) = "hello".toList ∧
    expand_dev_log_yaml (fun _ => some (Yaml.dict [])) ("- x".toList) = "- x".toList := by
  constructor
  · exact C8_nonlist_passthrough (fun _ => none) ("hello".toList)
      (fun l hl => Option.noConfusion hl)
  · exact C8_nonlist_passthrough (fun _ => some (Yaml.dict [])) ("- x".toList)
      (fun l hl => Yaml.noConfusion (Option.some.inj hl))

/-- C9: decompression has no URL protection: the prose line
`"docs.example.com"` — a URL by the compression side's own pattern — is
altered inside the URL by abbreviation expansion. -/
theorem C9_url_altered_by_decompress :
    decompress_document ("docs.example.com".toList) = "documentation.example.com".toList ∧
    is_in_url ("docs.example.com".toList) 0 = true ∧
    decompress_document ("docs.example.com".toList) ≠ "docs.example.com".toList := by
  have h : decompress_document ("docs.example.com".toList) =
      "documentation.example.com".toList := by decide
  exact ⟨h, by decide, by rw [h]; decide⟩

/-- C10: compression is not length-monotone: the vocabulary maps `MCP`/`mcp`
to the long form `Model Context Protocol`, so compressing the document
`"MCP"` strictly lengthens it. -/
theorem C10_not_length_monotone :
    compress_document ("MCP".toList) = "MODEL CONTEXT PROTOCOL".toList ∧
    ("MCP".toList).length < (compress_document ("MCP".toList)).length ∧
    REPLACEMENTS.lookup "MCP" = some "Model Context Protocol" ∧
    REPLACEMENTS.lookup "mcp" = some "Model Context Protocol" := by
  have h : compress_document ("MCP".toList) = "MODEL CONTEXT PROTOCOL".toList := by decide
  exact ⟨h, by rw [h]; decide, by decide, by decide⟩

/-- C4 counterexample: a lone trailing fence marker (no partner) protects the
positions after it, contradicting "a trailing unpaired marker protects no
position after it". -/
theorem C4_cex :
    scanMarkers ("``` a".toList) = [0] ∧
    is_in_code_block ("``` a".toList) 4 = true := by
  refine ⟨by decide, by decide⟩

/-- C4 amended: the inline fence check is a parity count: a position is
protected iff an odd number of unescaped markers lie strictly before it;
consequently the positions strictly after a pair's start marker up to and
including the end marker's own position are protected, and a trailing
unpaired marker protects every position after all markers. -/
theorem C4_amended (text : List Char) (p : Nat) :
    (is_in_code_block text p = true ↔
      Odd ((scanMarkers text).countP (fun m => decide (m < p)))) ∧
    (∀ m0 m1 rest, scanMarkers text = m0 :: m1 :: rest → m0 < p → p ≤ m1 →
      is_in_code_block text p = true) ∧
    ((∀ m ∈ scanMarkers text, m < p) → Odd (scanMarkers text).length →
      is_in_code_block text p = true) := by
  have parity : is_in_code_block text p = true ↔
      Odd ((scanMarkers text).countP (fun m => decide (m < p))) := by
    unfold is_in_code_block
    cases hms : scanMarkers text with
    | nil => simp [Nat.odd_iff]
    | cons m ms => simp [Nat.odd_iff]
  refine ⟨parity, ?_, ?_⟩
  · intro m0 m1 rest hm h0 h1
    have hpw := scanMarkers_pairwise text
    rw [hm] at hpw
    have hrest : ∀ m ∈ rest, m1 < m :=
      (List.pairwise_cons.mp (List.pairwise_cons.mp hpw).2).1
    have hzero : rest.countP (fun m => decide (m < p)) = 0 := by
      rw [List.countP_eq_zero]
      intro m hmem
      have := hrest m hmem
      simp only [decide_eq_true_eq]
      omega
    have hd0 : decide (m0 < p) = true := by simpa using h0
    have hd1 : decide (m1 < p) = false := by simp; omega
    rw [parity, hm]
    simp only [List.countP_cons, hzero, hd0, hd1]
    simp [Nat.odd_iff]
  · intro hall hodd
    have hlen : (scanMarkers text).countP (fun m => decide (m < p)) =
        (scanMarkers text).length := by
      rw [List.countP_eq_length]
      intro m hm
      simpa using hall m hm
    rw [parity, hlen]
    exact hodd

/-- Witness for C4: position 4 of `"`+"```"+`a`+"```"+` b"` lies between the
pair of markers at 0 and 4, and position 3 of `"`+"```"+` x"` lies after the
single dangling marker; both are protected. -/
theorem C4_witness :
    is_in_code_block ("```a``` b".toList) 4 = true ∧
    is_in_code_block ("``` x".toList) 3 = true := by
  constructor
  · exact (C4_amended ("```a``` b".toList) 4).2.1 0 4 [] (by decide) (by decide)
      (by decide)
  · exact (C4_amended ("``` x".toList) 3).2.2 (by decide)
      (by rw [(by decide : scanMarkers ("``` x".toList) = [0])]; decide)

end Handoff
